import Mathlib

/-!
A shallow embedding of the BLE-PKAP support code (BLEPKAP.py,
BluezManagement.py, ble-pkap-initiator.py) and proofs about it.

Bytes are modelled as natural numbers, byte buffers as lists of naturals,
Python integers as `Int`/`Nat`, and fallible operations as `Except`.
Python exceptions are collected in one error type that keeps the
distinctions visible in the source (distinct `ValueError` messages,
`OverflowError` from `int.to_bytes`, `struct.error` from the struct
module, `IndexError` from indexing an empty buffer, the library's
`InvalidSignature`, and `BluezManagementError` carrying a status code).
-/

/-- The Python exceptions the modelled code can raise. -/
inductive PyError where
  | valueError (msg : String)
  | overflowError
  | structError
  | indexError
  | typeError
  | invalidSignature
  | managementError (status : Nat)
  deriving DecidableEq, Repr

/-- Big-endian fixed-width encoding of a natural number, `w` bytes
(the value semantics of `int.to_bytes(length=w, byteorder='big')`). -/
def natToBytesBE : Nat → Nat → List Nat
  | 0, _ => []
  | w + 1, n => natToBytesBE w (n / 256) ++ [n % 256]

/-- `int.to_bytes(length=w, byteorder='big')` on a Python int: raises
`OverflowError` when the int is negative or too big for `w` bytes. -/
def intToBytesBE (w : Nat) (n : Int) : Except PyError (List Nat) :=
  if n < 0 ∨ (2 : Int) ^ (8 * w) ≤ n then .error .overflowError
  else .ok (natToBytesBE w n.toNat)

/-- `int.from_bytes(b, byteorder='big')`. -/
def fromBytesBE (b : List Nat) : Nat :=
  b.foldl (fun a x => a * 256 + x) 0

/-- Little-endian fixed-width encoding of a natural number, `w` bytes
(struct '<H' fields and friends). -/
def natToBytesLE : Nat → Nat → List Nat
  | 0, _ => []
  | w + 1, n => n % 256 :: natToBytesLE w (n / 256)

/-- Little-endian decoding of a byte list (struct '<H' unpacking). -/
def fromBytesLE (b : List Nat) : Nat :=
  b.foldr (fun x a => x + 256 * a) 0

/-- Message of `ValueError('Unsupported auth token format')`. -/
def msgUnsupportedFormat : String := "Unsupported auth token format"

/-- Message of `ValueError('Invalid random value')`. -/
def msgInvalidRand : String := "Invalid random value"

/-- Message of `ValueError('Invalid auth token length')`. -/
def msgInvalidTokenLength : String := "Invalid auth token length"

/-- Message of `ValueError('Invalid confirmation value')`. -/
def msgInvalidConfirm : String := "Invalid confirmation value"

/-- BLE-PKAP initiator auth token (class `InitiatorAuthToken`): an ECDSA
signature as an (r, s) pair of Python ints, the 16-byte OOB random value,
a format version and a key id. -/
structure InitiatorAuthToken where
  sig : Int × Int
  rand : List Nat
  format : Nat
  keyId : Nat
  deriving DecidableEq, Repr

/-- BLE-PKAP responder auth token (class `ResponderAuthToken`): no `rand`
field. -/
structure ResponderAuthToken where
  sig : Int × Int
  format : Nat
  keyId : Nat
  deriving DecidableEq, Repr

/-- `InitiatorAuthToken.FORMAT_V1`. -/
def FORMAT_V1 : Nat := 1

/-- `InitiatorAuthToken.encode`: checks the format, checks that `rand` is
exactly 16 bytes, then packs '!BH32s32s16s'.  The struct arguments are
evaluated first, so `sig[0].to_bytes` / `sig[1].to_bytes` can raise
`OverflowError`; `struct.pack` itself then range-checks the 'H' field
(`struct.error` when keyId does not fit 16 bits). -/
def InitiatorAuthToken.encode (t : InitiatorAuthToken) : Except PyError (List Nat) :=
  if t.format ≠ FORMAT_V1 then .error (.valueError msgUnsupportedFormat)
  else if t.rand.length ≠ 16 then .error (.valueError msgInvalidRand)
  else do
    let r ← intToBytesBE 32 t.sig.1
    let s ← intToBytesBE 32 t.sig.2
    if t.keyId < 2 ^ 16 then
      .ok ([t.format] ++ natToBytesBE 2 t.keyId ++ r ++ s ++ t.rand)
    else .error .structError

/-- `InitiatorAuthToken.decode`: reads `encodedToken[0]` (IndexError on an
empty buffer), rejects a format other than 1, then rejects a length other
than 83, then unpacks '!BH32s32s16s'. -/
def InitiatorAuthToken.decode (b : List Nat) : Except PyError InitiatorAuthToken :=
  match b with
  | [] => .error .indexError
  | format :: _ =>
    if format ≠ FORMAT_V1 then .error (.valueError msgUnsupportedFormat)
    else if b.length ≠ 83 then .error (.valueError msgInvalidTokenLength)
    else .ok
      { format := format
        keyId := fromBytesBE ((b.drop 1).take 2)
        sig := (Int.ofNat (fromBytesBE ((b.drop 3).take 32)),
                Int.ofNat (fromBytesBE ((b.drop 35).take 32)))
        rand := (b.drop 67).take 16 }

/-- `ResponderAuthToken.encode`: checks the format, then packs '!BH32s32s'. -/
def ResponderAuthToken.encode (t : ResponderAuthToken) : Except PyError (List Nat) :=
  if t.format ≠ FORMAT_V1 then .error (.valueError msgUnsupportedFormat)
  else do
    let r ← intToBytesBE 32 t.sig.1
    let s ← intToBytesBE 32 t.sig.2
    if t.keyId < 2 ^ 16 then
      .ok ([t.format] ++ natToBytesBE 2 t.keyId ++ r ++ s)
    else .error .structError

/-- `ResponderAuthToken.decode`: reads `encodedToken[0]` (IndexError on an
empty buffer), rejects a format other than 1, then rejects a length other
than 67, then unpacks '!BH32s32s'. -/
def ResponderAuthToken.decode (b : List Nat) : Except PyError ResponderAuthToken :=
  match b with
  | [] => .error .indexError
  | format :: _ =>
    if format ≠ FORMAT_V1 then .error (.valueError msgUnsupportedFormat)
    else if b.length ≠ 67 then .error (.valueError msgInvalidTokenLength)
    else .ok
      { format := format
        keyId := fromBytesBE ((b.drop 1).take 2)
        sig := (Int.ofNat (fromBytesBE ((b.drop 3).take 32)),
                Int.ofNat (fromBytesBE ((b.drop 35).take 32))) }

/-- `InitiatorAuthToken.generate`: rejects a confirmation value that is not
16 bytes, rejects a rand that is not 16 bytes, signs `confirm` with the
private key (ECDSA P-256 / SHA-256, abstract here), decodes the DER
signature to an (r, s) pair and builds a token with format `FORMAT_V1`. -/
def InitiatorAuthToken.generate {Priv DER : Type}
    (sign : List Nat → Priv → DER) (decode_dss : DER → Int × Int)
    (confirm rand : List Nat) (keyId : Nat) (privKey : Priv) :
    Except PyError InitiatorAuthToken :=
  if confirm.length ≠ 16 then .error (.valueError msgInvalidConfirm)
  else if rand.length ≠ 16 then .error (.valueError msgInvalidRand)
  else .ok { sig := decode_dss (sign confirm privKey), rand := rand,
             format := FORMAT_V1, keyId := keyId }

/-- `InitiatorAuthToken.verify`: rejects a format other than 1, re-encodes
the (r, s) pair as a DER signature and checks it with the public key;
the library raises `InvalidSignature` on mismatch. -/
def InitiatorAuthToken.verify {Pub DER : Type}
    (encode_dss : Int × Int → DER) (pverify : DER → List Nat → Pub → Bool)
    (t : InitiatorAuthToken) (confirm : List Nat) (pubKey : Pub) :
    Except PyError Unit :=
  if t.format ≠ FORMAT_V1 then .error (.valueError msgUnsupportedFormat)
  else if pverify (encode_dss t.sig) confirm pubKey then .ok ()
  else .error .invalidSignature

/-- `ResponderAuthToken.generate`: rejects a confirmation value that is not
16 bytes, signs `confirm` with the private key, decodes the DER signature
to an (r, s) pair and builds a token with format `FORMAT_V1`. -/
def ResponderAuthToken.generate {Priv DER : Type}
    (sign : List Nat → Priv → DER) (decode_dss : DER → Int × Int)
    (confirm : List Nat) (keyId : Nat) (privKey : Priv) :
    Except PyError ResponderAuthToken :=
  if confirm.length ≠ 16 then .error (.valueError msgInvalidConfirm)
  else .ok { sig := decode_dss (sign confirm privKey),
             format := FORMAT_V1, keyId := keyId }

/-- `ResponderAuthToken.verify`: rejects a format other than 1, re-encodes
the (r, s) pair as a DER signature and checks it with the public key. -/
def ResponderAuthToken.verify {Pub DER : Type}
    (encode_dss : Int × Int → DER) (pverify : DER → List Nat → Pub → Bool)
    (t : ResponderAuthToken) (confirm : List Nat) (pubKey : Pub) :
    Except PyError Unit :=
  if t.format ≠ FORMAT_V1 then .error (.valueError msgUnsupportedFormat)
  else if pverify (encode_dss t.sig) confirm pubKey then .ok ()
  else .error .invalidSignature

/-! ## BluezManagement.py -/

/-- Message of `ValueError('Invalid advertising data element length')`. -/
def msgInvalidAdvLen : String := "Invalid advertising data element length"

/-- Message of the two `ValueError`s raised by `readLocalOOBExtendedData`. -/
def msgInvalidOOBLen : String :=
  "Invalid response length for MGMT_CMD_READ_LOCAL_OOB_EXTENDED_DATA command"

/-- `adElems[elemType] = value` on a Python `OrderedDict`, modelled as an
association list: updating an existing key keeps its position and replaces
its value; a new key is appended at the end. -/
def odInsert (m : List (Nat × List Nat)) (k : Nat) (v : List Nat) :
    List (Nat × List Nat) :=
  if m.any (fun p => p.1 = k) then
    m.map (fun p => if p.1 = k then (k, v) else p)
  else m ++ [(k, v)]

/-- The loop body of `decodeAdvertisingData`, written on the suffix of the
buffer that starts at the current offset `i` (the code only ever reads at
positions `≥ i`).  One byte left: `struct.unpack_from('<BB', ...)` raises
`struct.error`.  Two or more: `(elemLen, elemType)` are the next two bytes;
if `i + elemLen + 1 > len(advData)` — that is, the declared length runs
past the end of the remaining buffer — a `ValueError` is raised; otherwise
the `elemLen - 1` value bytes after the type byte are stored under
`elemType` and the offset advances by `elemLen + 1`. -/
def decodeAdvLoop (adElems : List (Nat × List Nat)) (buf : List Nat) :
    Except PyError (List (Nat × List Nat)) :=
  match buf with
  | [] => .ok adElems
  | [_] => .error .structError
  | elemLen :: elemType :: rest =>
    if elemLen + 1 > (elemLen :: elemType :: rest).length then
      .error (.valueError msgInvalidAdvLen)
    else
      decodeAdvLoop (odInsert adElems elemType (rest.take (elemLen - 1)))
        ((elemLen :: elemType :: rest).drop (elemLen + 1))
termination_by buf.length
decreasing_by
  simp only [List.length_drop, List.length_cons]
  omega

/-- `decodeAdvertisingData`: walks the buffer slicing
`(length, type, value)` records into an ordered mapping. -/
def decodeAdvertisingData (advData : List Nat) :
    Except PyError (List (Nat × List Nat)) :=
  decodeAdvLoop [] advData

/-- `BluezManagementSocket.issueRequest`'s receive loop, with `recv`
modelled as returning the next chunk of the controller's byte stream
(`none` models the loop blocked in `recv` with no further data ever
arriving).  Each iteration appends one chunk to `rcvData`; when at least a
6-byte header and the full `eventDataLen` bytes are buffered, a
command-complete (1) or command-status (2) event whose bytes 6..7 equal
the outgoing opCode returns `(status, result)`; any other complete frame
is sliced off the front whole and the loop reads again. -/
def issueLoop (opCode : Nat) (rcvData : List Nat) (chunks : List (List Nat)) :
    Option (Nat × Option (List Nat)) :=
  match chunks with
  | [] => none
  | c :: rest =>
    let d := rcvData ++ c
    if d.length < 6 then issueLoop opCode d rest
    else
      let eventCode := fromBytesLE (d.take 2)
      let eventDataLen := fromBytesLE ((d.drop 4).take 2)
      if d.length < eventDataLen + 6 then issueLoop opCode d rest
      else
        if (eventCode = 1 ∨ eventCode = 2) ∧ 9 ≤ d.length ∧
            fromBytesLE ((d.drop 6).take 2) = opCode then
          some (d.getD 8 0,
                if eventCode = 1 then some ((d.drop 9).take (eventDataLen + 6 - 9))
                else none)
        else issueLoop opCode (d.drop (6 + eventDataLen)) rest

/-- A management event frame as the controller emits it. -/
structure MgmtFrame where
  eventCode : Nat
  ctrlIndex : Nat
  data : List Nat
  deriving DecidableEq, Repr

/-- The wire encoding of a management event frame:
`eventCode:u16-LE, controllerIndex:u16-LE, dataLen:u16-LE, data`. -/
def MgmtFrame.encode (f : MgmtFrame) : List Nat :=
  natToBytesLE 2 f.eventCode ++ natToBytesLE 2 f.ctrlIndex ++
    natToBytesLE 2 f.data.length ++ f.data

/-- A frame the receive loop is guaranteed to discard when it sits whole
at the front of the buffer: either not a command-complete/command-status
event, or one whose embedded opcode (its first two data bytes) does not
match the request. -/
def MgmtFrame.skippable (f : MgmtFrame) (opCode : Nat) : Prop :=
  ¬(f.eventCode = 1 ∨ f.eventCode = 2) ∨
    (2 ≤ f.data.length ∧ fromBytesLE (f.data.take 2) ≠ opCode)

/-- Well-formedness of a frame: the three header fields fit their 16-bit
slots. -/
def MgmtFrame.wf (f : MgmtFrame) : Prop :=
  f.eventCode < 2 ^ 16 ∧ f.ctrlIndex < 2 ^ 16 ∧ f.data.length < 2 ^ 16

/-- `BluezManagementSocket.readLocalOOBExtendedData`, parameterised on the
`(status, data)` pair that `issueRequest` returned for the command (`data`
is `none` when the matching event was a command-status event; the code
then calls `len(None)`, a `TypeError`).  A non-success status raises
`BluezManagementError(status)`; then the `<BH` header `(addrType, dataLen)`
is unpacked, the declared length must equal the remaining byte count, and
the remaining bytes are decoded as advertising data. -/
def readLocalOOBExtendedData (status : Nat) (data : Option (List Nat)) :
    Except PyError (Nat × List (Nat × List Nat)) :=
  if status ≠ 0 then .error (.managementError status)
  else
    match data with
    | none => .error .typeError
    | some d =>
      if d.length < 3 then .error (.valueError msgInvalidOOBLen)
      else
        let addrType := d.getD 0 0
        let dataLen := fromBytesLE ((d.drop 1).take 2)
        if d.length ≠ 3 + dataLen then .error (.valueError msgInvalidOOBLen)
        else (decodeAdvertisingData (d.drop 3)).map (fun elems => (addrType, elems))

/-- A well-formed advertising-data record, as a (type, value) pair; its
wire form is `(length, type, value)` with `length = value.length + 1`
(the length byte counts the type byte plus the value bytes). -/
def encodeAdvRecord (r : Nat × List Nat) : List Nat :=
  (r.2.length + 1) :: r.1 :: r.2

/-- A buffer consisting of well-formed `(length, type, value)` records. -/
def encodeAdvRecords (rs : List (Nat × List Nat)) : List Nat :=
  (rs.map encodeAdvRecord).flatten

/-- The insertion-ordered mapping described by a record sequence: each
record is inserted in order, a repeated type tag overwriting the earlier
value for that tag. -/
def advRecordsToMap (rs : List (Nat × List Nat)) : List (Nat × List Nat) :=
  rs.foldl (fun m r => odInsert m r.1 r.2) []

/-! ## ble-pkap-initiator.py -/

/-- The terminal outcome of `BLEPKAPInitiator.authResponder`. -/
inductive AuthOutcome where
  | authenticated
  | failedUnknownKey (keyId : Nat)
  | failedSignature
  | failedDecode (e : PyError)
  deriving DecidableEq, Repr

/-- `BLEPKAPInitiator.authResponder`: decodes the responder token read
from the auth characteristic; a decode failure is fatal; a keyId different
from the expected responder key id fails the handshake before any
signature verification; otherwise the token is verified against the saved
initiator confirmation value and the responder public key, and the
handshake ends authenticated exactly when verification succeeds. -/
def authResponder {Pub DER : Type}
    (encode_dss : Int × Int → DER) (pverify : DER → List Nat → Pub → Bool)
    (respPubKey : Pub) (respKeyId : Nat) (initConfirm : List Nat)
    (respTokenBytes : List Nat) : AuthOutcome :=
  match ResponderAuthToken.decode respTokenBytes with
  | .error e => .failedDecode e
  | .ok t =>
    if t.keyId ≠ respKeyId then .failedUnknownKey t.keyId
    else
      match t.verify encode_dss pverify initConfirm respPubKey with
      | .error _ => .failedSignature
      | .ok _ => .authenticated

/-! ## Helper lemmas about the byte encodings -/

theorem natToBytesBE_length (w n : Nat) : (natToBytesBE w n).length = w := by
  induction w generalizing n with
  | zero => rfl
  | succ w ih => simp [natToBytesBE, ih]

theorem fromBytesBE_append_singleton (xs : List Nat) (y : Nat) :
    fromBytesBE (xs ++ [y]) = fromBytesBE xs * 256 + y := by
  simp [fromBytesBE, List.foldl_append]

theorem fromBytesBE_natToBytesBE (w n : Nat) (h : n < 256 ^ w) :
    fromBytesBE (natToBytesBE w n) = n := by
  induction w generalizing n with
  | zero =>
    rw [pow_zero] at h
    have hn : n = 0 := by omega
    subst hn; rfl
  | succ w ih =>
    rw [natToBytesBE, fromBytesBE_append_singleton, ih]
    · omega
    · rw [pow_succ, Nat.mul_comm] at h
      exact Nat.div_lt_of_lt_mul h

theorem natToBytesLE_length (w n : Nat) : (natToBytesLE w n).length = w := by
  induction w generalizing n with
  | zero => rfl
  | succ w ih => simp [natToBytesLE, ih]

theorem fromBytesLE_cons (x : Nat) (xs : List Nat) :
    fromBytesLE (x :: xs) = x + 256 * fromBytesLE xs := rfl

theorem fromBytesLE_natToBytesLE (w n : Nat) (h : n < 256 ^ w) :
    fromBytesLE (natToBytesLE w n) = n := by
  induction w generalizing n with
  | zero =>
    rw [pow_zero] at h
    have hn : n = 0 := by omega
    subst hn; rfl
  | succ w ih =>
    rw [natToBytesLE, fromBytesLE_cons, ih]
    · omega
    · rw [pow_succ, Nat.mul_comm] at h
      exact Nat.div_lt_of_lt_mul h

theorem intToBytesBE_ok (w : Nat) (n : Int) (h0 : 0 ≤ n)
    (h : n < (2 : Int) ^ (8 * w)) :
    intToBytesBE w n = .ok (natToBytesBE w n.toNat) := by
  rw [intToBytesBE, if_neg]
  push_neg
  exact ⟨h0, h⟩

theorem int_toNat_lt_pow256 (n : Int) (h0 : 0 ≤ n) (h : n < (2 : Int) ^ 256) :
    n.toNat < 256 ^ 32 := by
  have e : ((256 : Nat) ^ 32 : Int) = (2 : Int) ^ 256 := by norm_num
  have h' : (n.toNat : Int) = n := Int.toNat_of_nonneg h0
  have : (n.toNat : Int) < ((256 : Nat) ^ 32 : Int) := by rw [h', e]; exact h
  exact_mod_cast this

theorem two_pow_256_eq : (2 : Int) ^ 256 = (2 : Int) ^ (8 * 32) := by norm_num

/-- Slices of the token wire layout `f :: (k ++ (r ++ (s ++ z)))`. -/
theorem token_slices (f : Nat) (k r s z : List Nat)
    (hk : k.length = 2) (hr : r.length = 32) (hs : s.length = 32) :
    ((f :: (k ++ (r ++ (s ++ z)))).drop 1).take 2 = k ∧
    ((f :: (k ++ (r ++ (s ++ z)))).drop 3).take 32 = r ∧
    ((f :: (k ++ (r ++ (s ++ z)))).drop 35).take 32 = s ∧
    (f :: (k ++ (r ++ (s ++ z)))).drop 67 = z := by
  have h1 : (f :: (k ++ (r ++ (s ++ z)))).drop 1 = k ++ (r ++ (s ++ z)) := rfl
  have h3 : (f :: (k ++ (r ++ (s ++ z)))).drop 3 = (k ++ (r ++ (s ++ z))).drop 2 := rfl
  have h35 : (f :: (k ++ (r ++ (s ++ z)))).drop 35 = (k ++ (r ++ (s ++ z))).drop 34 := rfl
  have h67 : (f :: (k ++ (r ++ (s ++ z)))).drop 67 = (k ++ (r ++ (s ++ z))).drop 66 := rfl
  have d34 : (k ++ (r ++ (s ++ z))).drop 34 = (r ++ (s ++ z)).drop 32 := by
    rw [show (34 : Nat) = k.length + 32 by rw [hk]]
    exact List.drop_append 32
  have d66 : (k ++ (r ++ (s ++ z))).drop 66 = (s ++ z).drop 32 := by
    rw [show (66 : Nat) = k.length + 64 by rw [hk]]
    rw [List.drop_append 64]
    rw [show (64 : Nat) = r.length + 32 by rw [hr]]
    exact List.drop_append 32
  refine ⟨?_, ?_, ?_, ?_⟩
  · rw [h1, List.take_left' hk]
  · rw [h3, List.drop_left' hk, List.take_left' hr]
  · rw [h35, d34, List.drop_left' hr, List.take_left' hs]
  · rw [h67, d66, List.drop_left' hs]

theorem exceptOkBind {α β : Type} (a : α) (f : α → Except PyError β) :
    (Except.ok a >>= f : Except PyError β) = f a := rfl

theorem pow832 : (2 : Int) ^ (8 * 32) = (2 : Int) ^ 256 := by norm_num

theorem InitiatorAuthToken.encode_ok_init (t : InitiatorAuthToken)
    (hf : t.format = 1) (hrand : t.rand.length = 16) (hk : t.keyId < 2 ^ 16)
    (hr0 : 0 ≤ t.sig.1) (hr1 : t.sig.1 < (2 : Int) ^ 256)
    (hs0 : 0 ≤ t.sig.2) (hs1 : t.sig.2 < (2 : Int) ^ 256) :
    t.encode = .ok (t.format :: (natToBytesBE 2 t.keyId ++
      (natToBytesBE 32 t.sig.1.toNat ++ (natToBytesBE 32 t.sig.2.toNat ++ t.rand)))) := by
  rw [InitiatorAuthToken.encode, if_neg (by simp [hf, FORMAT_V1]),
    if_neg (by simp [hrand])]
  rw [intToBytesBE_ok 32 t.sig.1 hr0 (by rw [pow832]; exact hr1),
    intToBytesBE_ok 32 t.sig.2 hs0 (by rw [pow832]; exact hs1)]
  have hk2 : t.keyId < 65536 := by norm_num at hk; exact hk
  simp [hk2, exceptOkBind]

theorem ResponderAuthToken.encode_ok_resp (t : ResponderAuthToken)
    (hf : t.format = 1) (hk : t.keyId < 2 ^ 16)
    (hr0 : 0 ≤ t.sig.1) (hr1 : t.sig.1 < (2 : Int) ^ 256)
    (hs0 : 0 ≤ t.sig.2) (hs1 : t.sig.2 < (2 : Int) ^ 256) :
    t.encode = .ok (t.format :: (natToBytesBE 2 t.keyId ++
      (natToBytesBE 32 t.sig.1.toNat ++ natToBytesBE 32 t.sig.2.toNat))) := by
  rw [ResponderAuthToken.encode, if_neg (by simp [hf, FORMAT_V1])]
  rw [intToBytesBE_ok 32 t.sig.1 hr0 (by rw [pow832]; exact hr1),
    intToBytesBE_ok 32 t.sig.2 hs0 (by rw [pow832]; exact hs1)]
  have hk2 : t.keyId < 65536 := by norm_num at hk; exact hk
  simp [hk2, exceptOkBind]

theorem keyId_lt_pow (k : Nat) (h : k < 2 ^ 16) : k < 256 ^ 2 := by
  norm_num at h ⊢
  omega

/-- C1: for every valid token (format 1, keyId in 16 bits, signature
components nonnegative and below 2^256, and a 16-byte rand for the
initiator token), decoding the encoding yields the token back field by
field, for both the initiator and the responder token types. -/
theorem c1_token_roundtrip
    (ti : InitiatorAuthToken) (tr : ResponderAuthToken)
    (hfi : ti.format = 1) (hki : ti.keyId < 2 ^ 16)
    (hir0 : 0 ≤ ti.sig.1) (hir1 : ti.sig.1 < (2 : Int) ^ 256)
    (his0 : 0 ≤ ti.sig.2) (his1 : ti.sig.2 < (2 : Int) ^ 256)
    (hrand : ti.rand.length = 16)
    (hfr : tr.format = 1) (hkr : tr.keyId < 2 ^ 16)
    (hrr0 : 0 ≤ tr.sig.1) (hrr1 : tr.sig.1 < (2 : Int) ^ 256)
    (hrs0 : 0 ≤ tr.sig.2) (hrs1 : tr.sig.2 < (2 : Int) ^ 256) :
    (∃ b, ti.encode = .ok b ∧ InitiatorAuthToken.decode b = .ok ti) ∧
    (∃ b, tr.encode = .ok b ∧ ResponderAuthToken.decode b = .ok tr) := by
  constructor
  · refine ⟨_, ti.encode_ok_init hfi hrand hki hir0 hir1 his0 his1, ?_⟩
    obtain ⟨s1, s2, s3, s4⟩ := token_slices ti.format (natToBytesBE 2 ti.keyId)
      (natToBytesBE 32 ti.sig.1.toNat) (natToBytesBE 32 ti.sig.2.toNat) ti.rand
      (natToBytesBE_length 2 ti.keyId) (natToBytesBE_length 32 ti.sig.1.toNat)
      (natToBytesBE_length 32 ti.sig.2.toNat)
    have hlen : (ti.format :: (natToBytesBE 2 ti.keyId ++
        (natToBytesBE 32 ti.sig.1.toNat ++ (natToBytesBE 32 ti.sig.2.toNat ++ ti.rand)))).length
        = 83 := by
      simp [natToBytesBE_length, hrand]
    simp only [InitiatorAuthToken.decode]
    rw [if_neg (by simp [hfi, FORMAT_V1]), if_neg (by simp [hlen])]
    rw [s1, s2, s3, s4, List.take_of_length_le (le_of_eq hrand),
      fromBytesBE_natToBytesBE 2 ti.keyId (keyId_lt_pow _ hki),
      fromBytesBE_natToBytesBE 32 ti.sig.1.toNat (int_toNat_lt_pow256 _ hir0 hir1),
      fromBytesBE_natToBytesBE 32 ti.sig.2.toNat (int_toNat_lt_pow256 _ his0 his1)]
    simp [Int.toNat_of_nonneg hir0, Int.toNat_of_nonneg his0]
  · refine ⟨_, tr.encode_ok_resp hfr hkr hrr0 hrr1 hrs0 hrs1, ?_⟩
    have hb : (natToBytesBE 32 tr.sig.1.toNat ++ natToBytesBE 32 tr.sig.2.toNat)
        = natToBytesBE 32 tr.sig.1.toNat ++ (natToBytesBE 32 tr.sig.2.toNat ++ []) := by
      simp
    rw [hb]
    obtain ⟨s1, s2, s3, _⟩ := token_slices tr.format (natToBytesBE 2 tr.keyId)
      (natToBytesBE 32 tr.sig.1.toNat) (natToBytesBE 32 tr.sig.2.toNat) []
      (natToBytesBE_length 2 tr.keyId) (natToBytesBE_length 32 tr.sig.1.toNat)
      (natToBytesBE_length 32 tr.sig.2.toNat)
    have hlen : (tr.format :: (natToBytesBE 2 tr.keyId ++
        (natToBytesBE 32 tr.sig.1.toNat ++ (natToBytesBE 32 tr.sig.2.toNat ++ ([] : List Nat))))).length
        = 67 := by
      simp [natToBytesBE_length]
    simp only [ResponderAuthToken.decode]
    rw [if_neg (by simp [hfr, FORMAT_V1]),
      if_neg (by
        simp only [ne_eq, List.length_cons, List.length_append, List.length_nil,
          natToBytesBE_length, not_not])]
    rw [s1, s2, s3,
      fromBytesBE_natToBytesBE 2 tr.keyId (keyId_lt_pow _ hkr),
      fromBytesBE_natToBytesBE 32 tr.sig.1.toNat (int_toNat_lt_pow256 _ hrr0 hrr1),
      fromBytesBE_natToBytesBE 32 tr.sig.2.toNat (int_toNat_lt_pow256 _ hrs0 hrs1)]
    simp [Int.toNat_of_nonneg hrr0, Int.toNat_of_nonneg hrs0]


set_option maxRecDepth 4000 in
theorem c1_token_roundtrip_witness :
    (∃ b, InitiatorAuthToken.encode
        { sig := (1, 2), rand := List.replicate 16 0, format := 1, keyId := 3 } = .ok b ∧
      InitiatorAuthToken.decode b = .ok
        { sig := (1, 2), rand := List.replicate 16 0, format := 1, keyId := 3 }) ∧
    (∃ b, ResponderAuthToken.encode { sig := (1, 2), format := 1, keyId := 3 } = .ok b ∧
      ResponderAuthToken.decode b = .ok { sig := (1, 2), format := 1, keyId := 3 }) :=
  c1_token_roundtrip
    { sig := (1, 2), rand := List.replicate 16 0, format := 1, keyId := 3 }
    { sig := (1, 2), format := 1, keyId := 3 }
    rfl (by decide) (by decide) (by decide) (by decide) (by decide) (by decide)
    rfl (by decide) (by decide) (by decide) (by decide) (by decide)

theorem intToBytesBE_err (w : Nat) (n : Int)
    (h : n < 0 ∨ (2 : Int) ^ (8 * w) ≤ n) :
    intToBytesBE w n = .error .overflowError := by
  rw [intToBytesBE, if_pos h]

theorem exceptErrorBind {α β : Type} (e : PyError) (f : α → Except PyError β) :
    (Except.error e >>= f : Except PyError β) = .error e := rfl

/-- C3: for a format-1 token with valid rand, 16-bit keyId and in-range
signature components, encode returns exactly the big-endian layout
1-byte format, 2-byte keyId, 32-byte r, 32-byte s (plus 16-byte rand for
the initiator token), totalling 83 and 67 bytes respectively; and encode
fails with one of the FormatError `ValueError`s when the format is not 1
or the initiator rand is not exactly 16 bytes. -/
theorem c3_encode_layout
    (ti : InitiatorAuthToken) (tr : ResponderAuthToken)
    (hfi : ti.format = 1) (hrand : ti.rand.length = 16) (hki : ti.keyId < 2 ^ 16)
    (hir0 : 0 ≤ ti.sig.1) (hir1 : ti.sig.1 < (2 : Int) ^ 256)
    (his0 : 0 ≤ ti.sig.2) (his1 : ti.sig.2 < (2 : Int) ^ 256)
    (hfr : tr.format = 1) (hkr : tr.keyId < 2 ^ 16)
    (hrr0 : 0 ≤ tr.sig.1) (hrr1 : tr.sig.1 < (2 : Int) ^ 256)
    (hrs0 : 0 ≤ tr.sig.2) (hrs1 : tr.sig.2 < (2 : Int) ^ 256)
    (tb : InitiatorAuthToken) (ub : ResponderAuthToken) :
    (ti.encode = .ok ([ti.format] ++ natToBytesBE 2 ti.keyId ++
        natToBytesBE 32 ti.sig.1.toNat ++ natToBytesBE 32 ti.sig.2.toNat ++ ti.rand) ∧
      ([ti.format] ++ natToBytesBE 2 ti.keyId ++ natToBytesBE 32 ti.sig.1.toNat ++
        natToBytesBE 32 ti.sig.2.toNat ++ ti.rand).length = 83) ∧
    (tr.encode = .ok ([tr.format] ++ natToBytesBE 2 tr.keyId ++
        natToBytesBE 32 tr.sig.1.toNat ++ natToBytesBE 32 tr.sig.2.toNat) ∧
      ([tr.format] ++ natToBytesBE 2 tr.keyId ++ natToBytesBE 32 tr.sig.1.toNat ++
        natToBytesBE 32 tr.sig.2.toNat).length = 67) ∧
    (tb.format ≠ 1 ∨ tb.rand.length ≠ 16 →
      ∃ m, tb.encode = .error (.valueError m)) ∧
    (ub.format ≠ 1 → ub.encode = .error (.valueError msgUnsupportedFormat)) := by
  refine ⟨⟨?_, ?_⟩, ⟨?_, ?_⟩, ?_, ?_⟩
  · rw [ti.encode_ok_init hfi hrand hki hir0 hir1 his0 his1]
    simp
  · simp [natToBytesBE_length, hrand]
  · rw [tr.encode_ok_resp hfr hkr hrr0 hrr1 hrs0 hrs1]
    simp
  · simp [natToBytesBE_length]
  · intro h
    by_cases hf : tb.format = 1
    · have hr : tb.rand.length ≠ 16 := h.resolve_left (fun hn => hn hf)
      refine ⟨msgInvalidRand, ?_⟩
      rw [InitiatorAuthToken.encode, if_neg (by simp [hf, FORMAT_V1]), if_pos hr]
    · refine ⟨msgUnsupportedFormat, ?_⟩
      rw [InitiatorAuthToken.encode, if_pos (by simp [FORMAT_V1]; exact hf)]
  · intro hf
    rw [ResponderAuthToken.encode, if_pos (by simp [FORMAT_V1]; exact hf)]

set_option maxRecDepth 4000 in
theorem c3_encode_layout_witness :
    (InitiatorAuthToken.encode
        { sig := (1, 2), rand := List.replicate 16 0, format := 1, keyId := 3 } =
      .ok ([1] ++ natToBytesBE 2 3 ++ natToBytesBE 32 (1 : Int).toNat ++
        natToBytesBE 32 (2 : Int).toNat ++ List.replicate 16 0) ∧
      ([1] ++ natToBytesBE 2 3 ++ natToBytesBE 32 (1 : Int).toNat ++
        natToBytesBE 32 (2 : Int).toNat ++ List.replicate 16 0).length = 83) ∧
    (ResponderAuthToken.encode { sig := (1, 2), format := 1, keyId := 3 } =
      .ok ([1] ++ natToBytesBE 2 3 ++ natToBytesBE 32 (1 : Int).toNat ++
        natToBytesBE 32 (2 : Int).toNat) ∧
      ([1] ++ natToBytesBE 2 3 ++ natToBytesBE 32 (1 : Int).toNat ++
        natToBytesBE 32 (2 : Int).toNat).length = 67) ∧
    (({ sig := (1, 2), rand := [], format := 1, keyId := 3 } :
        InitiatorAuthToken).format ≠ 1 ∨
      ({ sig := (1, 2), rand := [], format := 1, keyId := 3 } :
        InitiatorAuthToken).rand.length ≠ 16 →
      ∃ m, InitiatorAuthToken.encode
        { sig := (1, 2), rand := [], format := 1, keyId := 3 } =
          .error (.valueError m)) ∧
    (({ sig := (1, 2), format := 2, keyId := 3 } : ResponderAuthToken).format ≠ 1 →
      ResponderAuthToken.encode { sig := (1, 2), format := 2, keyId := 3 } =
        .error (.valueError msgUnsupportedFormat)) :=
  c3_encode_layout
    { sig := (1, 2), rand := List.replicate 16 0, format := 1, keyId := 3 }
    { sig := (1, 2), format := 1, keyId := 3 }
    rfl (by decide) (by decide) (by decide) (by decide) (by decide) (by decide)
    rfl (by decide) (by decide) (by decide) (by decide) (by decide)
    { sig := (1, 2), rand := [], format := 1, keyId := 3 }
    { sig := (1, 2), format := 2, keyId := 3 }

/-- C10: a token whose format and rand pass the explicit checks but whose
r or s component is negative or at least 2^256 makes encode fail with the
unguarded `OverflowError` from `int.to_bytes` — not one of the
FormatError `ValueError`s — for both token types. -/
theorem c10_sig_overflow
    (ti : InitiatorAuthToken) (tr : ResponderAuthToken)
    (hfi : ti.format = 1) (hrand : ti.rand.length = 16)
    (hbi : ti.sig.1 < 0 ∨ (2 : Int) ^ 256 ≤ ti.sig.1 ∨
      ti.sig.2 < 0 ∨ (2 : Int) ^ 256 ≤ ti.sig.2)
    (hfr : tr.format = 1)
    (hbr : tr.sig.1 < 0 ∨ (2 : Int) ^ 256 ≤ tr.sig.1 ∨
      tr.sig.2 < 0 ∨ (2 : Int) ^ 256 ≤ tr.sig.2) :
    ti.encode = .error .overflowError ∧ tr.encode = .error .overflowError ∧
    ∀ m, PyError.overflowError ≠ PyError.valueError m := by
  refine ⟨?_, ?_, fun m h => PyError.noConfusion h⟩
  · rw [InitiatorAuthToken.encode, if_neg (by simp [hfi, FORMAT_V1]),
      if_neg (by simp [hrand])]
    by_cases hb : ti.sig.1 < 0 ∨ (2 : Int) ^ (8 * 32) ≤ ti.sig.1
    · rw [intToBytesBE_err 32 _ hb]
      rfl
    · push_neg at hb
      obtain ⟨hb0, hb1⟩ := hb
      rw [intToBytesBE_ok 32 _ hb0 hb1, exceptOkBind]
      have hs : ti.sig.2 < 0 ∨ (2 : Int) ^ (8 * 32) ≤ ti.sig.2 := by
        rw [pow832] at hb1 ⊢
        rcases hbi with h | h | h | h
        · exact absurd h (not_lt.mpr hb0)
        · exact absurd h (not_le.mpr hb1)
        · exact Or.inl h
        · exact Or.inr h
      rw [intToBytesBE_err 32 _ hs]
      rfl
  · rw [ResponderAuthToken.encode, if_neg (by simp [hfr, FORMAT_V1])]
    by_cases hb : tr.sig.1 < 0 ∨ (2 : Int) ^ (8 * 32) ≤ tr.sig.1
    · rw [intToBytesBE_err 32 _ hb]
      rfl
    · push_neg at hb
      obtain ⟨hb0, hb1⟩ := hb
      rw [intToBytesBE_ok 32 _ hb0 hb1, exceptOkBind]
      have hs : tr.sig.2 < 0 ∨ (2 : Int) ^ (8 * 32) ≤ tr.sig.2 := by
        rw [pow832] at hb1 ⊢
        rcases hbr with h | h | h | h
        · exact absurd h (not_lt.mpr hb0)
        · exact absurd h (not_le.mpr hb1)
        · exact Or.inl h
        · exact Or.inr h
      rw [intToBytesBE_err 32 _ hs]
      rfl

theorem c10_sig_overflow_witness :
    InitiatorAuthToken.encode
      { sig := (-1, 0), rand := List.replicate 16 0, format := 1, keyId := 3 } =
        .error .overflowError ∧
    ResponderAuthToken.encode { sig := (-1, 0), format := 1, keyId := 3 } =
      .error .overflowError ∧
    ∀ m, PyError.overflowError ≠ PyError.valueError m :=
  c10_sig_overflow
    { sig := (-1, 0), rand := List.replicate 16 0, format := 1, keyId := 3 }
    { sig := (-1, 0), format := 1, keyId := 3 }
    rfl (by decide) (Or.inl (by decide)) rfl (Or.inl (by decide))

/-- C4 (amended): decode fails on every buffer whose length or first byte
is wrong, but the version check runs first and the empty buffer is not
reached by either check: on `[]` decode raises IndexError; on a non-empty
buffer whose first byte is not 1 it raises the unsupported-version
ValueError (even when the length is also wrong); only on a buffer whose
first byte is 1 and whose length is not 83 (initiator) / 67 (responder)
does it raise the distinct invalid-length ValueError.  The two
FormatError messages are distinct, so the caller can tell wrong version
from truncation only when the first byte is 1. -/
theorem c4_decode_rejects (b : List Nat) :
    (b = [] → InitiatorAuthToken.decode b = .error .indexError ∧
      ResponderAuthToken.decode b = .error .indexError) ∧
    (∀ f rest, b = f :: rest → f ≠ 1 →
      InitiatorAuthToken.decode b = .error (.valueError msgUnsupportedFormat) ∧
      ResponderAuthToken.decode b = .error (.valueError msgUnsupportedFormat)) ∧
    (∀ rest, b = 1 :: rest → b.length ≠ 83 →
      InitiatorAuthToken.decode b = .error (.valueError msgInvalidTokenLength)) ∧
    (∀ rest, b = 1 :: rest → b.length ≠ 67 →
      ResponderAuthToken.decode b = .error (.valueError msgInvalidTokenLength)) ∧
    msgUnsupportedFormat ≠ msgInvalidTokenLength := by
  refine ⟨?_, ?_, ?_, ?_, by decide⟩
  · rintro rfl
    exact ⟨rfl, rfl⟩
  · rintro f rest rfl hf
    constructor
    · simp only [InitiatorAuthToken.decode]
      rw [if_pos (by simpa [FORMAT_V1] using hf)]
    · simp only [ResponderAuthToken.decode]
      rw [if_pos (by simpa [FORMAT_V1] using hf)]
  · rintro rest rfl hlen
    simp only [InitiatorAuthToken.decode]
    rw [if_neg (by simp [FORMAT_V1]), if_pos hlen]
  · rintro rest rfl hlen
    simp only [ResponderAuthToken.decode]
    rw [if_neg (by simp [FORMAT_V1]), if_pos hlen]

theorem c4_decode_rejects_witness :
    InitiatorAuthToken.decode [] = .error .indexError ∧
    InitiatorAuthToken.decode [2] = .error (.valueError msgUnsupportedFormat) ∧
    InitiatorAuthToken.decode [1, 1] = .error (.valueError msgInvalidTokenLength) ∧
    ResponderAuthToken.decode [1, 1] = .error (.valueError msgInvalidTokenLength) :=
  ⟨((c4_decode_rejects []).1 rfl).1,
   ((c4_decode_rejects [2]).2.1 2 [] rfl (by decide)).1,
   (c4_decode_rejects [1, 1]).2.2.1 [1] rfl (by decide),
   (c4_decode_rejects [1, 1]).2.2.2.1 [1] rfl (by decide)⟩

/-- C4 counterexample: the empty buffer has a wrong length for both token
types, yet decode raises IndexError — not a FormatError ValueError — and
the 1-byte buffer `[2]`, also of wrong length, is reported with the
unsupported-version error, so a wrong-length input is not always reported
as a length mismatch. -/
theorem c4_decode_rejects_cex :
    InitiatorAuthToken.decode [] = .error .indexError ∧
    ResponderAuthToken.decode [] = .error .indexError ∧
    PyError.indexError ≠ PyError.valueError msgInvalidTokenLength ∧
    PyError.indexError ≠ PyError.valueError msgUnsupportedFormat ∧
    InitiatorAuthToken.decode [2] = .error (.valueError msgUnsupportedFormat) ∧
    msgUnsupportedFormat ≠ msgInvalidTokenLength := by
  refine ⟨rfl, rfl, by decide, by decide, rfl, by decide⟩

/-- C2: with ECDSA sign/verify and the DER conversions taken as abstract
primitives satisfying sign/verify correctness, a token generated from a
16-byte confirmation value verifies against the same value and the
matching public key, for both token variants; and generate rejects a
confirmation value that is not exactly 16 bytes. -/
theorem c2_generate_verify {Priv Pub DER : Type}
    (sign : List Nat → Priv → DER) (decode_dss : DER → Int × Int)
    (encode_dss : Int × Int → DER) (pverify : DER → List Nat → Pub → Bool)
    (priv : Priv) (pub : Pub)
    (hdss : ∀ d, encode_dss (decode_dss d) = d)
    (hsound : ∀ m, pverify (sign m priv) m pub = true)
    (c rand : List Nat) (keyId : Nat) :
    (c.length = 16 →
      (∃ t, ResponderAuthToken.generate sign decode_dss c keyId priv = .ok t ∧
        t.verify encode_dss pverify c pub = .ok ()) ∧
      (rand.length = 16 →
        ∃ t, InitiatorAuthToken.generate sign decode_dss c rand keyId priv = .ok t ∧
          t.verify encode_dss pverify c pub = .ok ())) ∧
    (c.length ≠ 16 →
      ResponderAuthToken.generate sign decode_dss c keyId priv =
        .error (.valueError msgInvalidConfirm) ∧
      InitiatorAuthToken.generate sign decode_dss c rand keyId priv =
        .error (.valueError msgInvalidConfirm)) := by
  constructor
  · intro hc
    constructor
    · refine ⟨{ sig := decode_dss (sign c priv), format := FORMAT_V1,
                keyId := keyId }, ?_, ?_⟩
      · rw [ResponderAuthToken.generate, if_neg (by simp [hc])]
      · simp [ResponderAuthToken.verify, FORMAT_V1, hdss, hsound]
    · intro hrand
      refine ⟨{ sig := decode_dss (sign c priv), rand := rand,
                format := FORMAT_V1, keyId := keyId }, ?_, ?_⟩
      · rw [InitiatorAuthToken.generate, if_neg (by simp [hc]),
          if_neg (by simp [hrand])]
      · simp [InitiatorAuthToken.verify, FORMAT_V1, hdss, hsound]
  · intro hc
    constructor
    · rw [ResponderAuthToken.generate, if_pos hc]
    · rw [InitiatorAuthToken.generate, if_pos hc]

theorem c2_generate_verify_witness :
    ((List.replicate 16 0 : List Nat).length = 16 →
      (∃ t, ResponderAuthToken.generate (fun _ (_ : Unit) => ((0 : Int), (0 : Int)))
          id (List.replicate 16 0) 5 () = .ok t ∧
        t.verify id (fun _ _ (_ : Unit) => true) (List.replicate 16 0) () = .ok ()) ∧
      ((List.replicate 16 1 : List Nat).length = 16 →
        ∃ t, InitiatorAuthToken.generate (fun _ (_ : Unit) => ((0 : Int), (0 : Int)))
            id (List.replicate 16 0) (List.replicate 16 1) 5 () = .ok t ∧
          t.verify id (fun _ _ (_ : Unit) => true) (List.replicate 16 0) () = .ok ())) ∧
    ((List.replicate 16 0 : List Nat).length ≠ 16 →
      ResponderAuthToken.generate (fun _ (_ : Unit) => ((0 : Int), (0 : Int)))
        id (List.replicate 16 0) 5 () = .error (.valueError msgInvalidConfirm) ∧
      InitiatorAuthToken.generate (fun _ (_ : Unit) => ((0 : Int), (0 : Int)))
        id (List.replicate 16 0) (List.replicate 16 1) 5 () =
          .error (.valueError msgInvalidConfirm)) :=
  c2_generate_verify (fun _ (_ : Unit) => ((0 : Int), (0 : Int))) id id
    (fun _ _ (_ : Unit) => true) () () (fun _ => rfl) (fun _ => rfl)
    (List.replicate 16 0) (List.replicate 16 1) 5

/-- C8: when the decoded responder token's keyId differs from the expected
responder key id, the handshake ends in the failed unknown-key outcome —
and it does so for every verification primitive whatsoever, so signature
verification is never attempted for that token. -/
theorem c8_unknown_key {Pub DER : Type} (bytes : List Nat)
    (t : ResponderAuthToken) (respKeyId : Nat) (confirm : List Nat)
    (pubKey : Pub)
    (hdec : ResponderAuthToken.decode bytes = .ok t)
    (hne : t.keyId ≠ respKeyId)
    (encode_dss : Int × Int → DER) (pverify : DER → List Nat → Pub → Bool) :
    authResponder encode_dss pverify pubKey respKeyId confirm bytes =
      .failedUnknownKey t.keyId := by
  unfold authResponder
  rw [hdec]
  simp [hne]

theorem c8_unknown_key_witness :
    authResponder id (fun _ _ (_ : Unit) => true) () 1 (List.replicate 16 0)
      (1 :: 0 :: 7 :: List.replicate 64 0) = .failedUnknownKey 7 :=
  c8_unknown_key (1 :: 0 :: 7 :: List.replicate 64 0)
    { sig := (0, 0), format := 1, keyId := 7 } 1 (List.replicate 16 0) ()
    (by rfl) (by decide) id (fun _ _ (_ : Unit) => true)

/-- C9: readLocalOOBExtendedData raises a ManagementError carrying the raw
status whenever the request's status is non-success; on success it raises
the invalid-length ValueError unless the payload's declared data length
equals the byte count remaining after the 3-byte (addrType, dataLen)
header, and otherwise returns the address type together with the decoded
advertising-data element mapping of those remaining bytes. -/
theorem c9_read_oob (st : Nat) (dOpt : Option (List Nat)) (d : List Nat) :
    (st ≠ 0 → readLocalOOBExtendedData st dOpt = .error (.managementError st)) ∧
    (3 ≤ d.length → fromBytesLE ((d.drop 1).take 2) = d.length - 3 →
      readLocalOOBExtendedData 0 (some d) =
        (decodeAdvertisingData (d.drop 3)).map (fun m => (d.getD 0 0, m))) ∧
    (d.length < 3 ∨ fromBytesLE ((d.drop 1).take 2) ≠ d.length - 3 →
      readLocalOOBExtendedData 0 (some d) = .error (.valueError msgInvalidOOBLen)) := by
  refine ⟨?_, ?_, ?_⟩
  · intro hst
    simp [readLocalOOBExtendedData, hst]
  · intro h3 hlen
    have hnl : ¬(d.length < 3) := by omega
    have hne : ¬(d.length ≠ 3 + fromBytesLE ((d.drop 1).take 2)) := by
      rw [hlen]; omega
    rw [List.drop_one] at hne
    simp [readLocalOOBExtendedData, hnl, hne]
  · intro h
    by_cases h3 : d.length < 3
    · simp [readLocalOOBExtendedData, h3]
    · have hne : d.length ≠ 3 + fromBytesLE ((d.drop 1).take 2) := by
        rcases h with h | h
        · omega
        · omega
      rw [List.drop_one] at hne
      simp [readLocalOOBExtendedData, h3, hne]

theorem c9_read_oob_witness :
    readLocalOOBExtendedData 17 none = .error (.managementError 17) ∧
    readLocalOOBExtendedData 0 (some [2, 3, 0, 2, 1, 6]) =
      (decodeAdvertisingData ([2, 3, 0, 2, 1, 6].drop 3)).map
        (fun m => ([2, 3, 0, 2, 1, 6].getD 0 0, m)) ∧
    readLocalOOBExtendedData 0 (some [0, 0, 0, 9]) =
      .error (.valueError msgInvalidOOBLen) :=
  ⟨(c9_read_oob 17 none []).1 (by decide),
   (c9_read_oob 0 (some [2, 3, 0, 2, 1, 6]) [2, 3, 0, 2, 1, 6]).2.1
     (by decide) (by decide),
   (c9_read_oob 0 (some [0, 0, 0, 9]) [0, 0, 0, 9]).2.2
     (Or.inr (by decide))⟩

theorem decodeAdvLoop_nil (m : List (Nat × List Nat)) :
    decodeAdvLoop m [] = .ok m := by
  simp [decodeAdvLoop]

theorem decodeAdvLoop_one (m : List (Nat × List Nat)) (x : Nat) :
    decodeAdvLoop m [x] = .error .structError := by
  simp [decodeAdvLoop]

theorem decodeAdvLoop_cons₂ (m : List (Nat × List Nat)) (l t : Nat)
    (rest : List Nat) :
    decodeAdvLoop m (l :: t :: rest) =
      if l + 1 > (l :: t :: rest).length then .error (.valueError msgInvalidAdvLen)
      else decodeAdvLoop (odInsert m t (rest.take (l - 1)))
        ((l :: t :: rest).drop (l + 1)) := by
  rw [decodeAdvLoop]

theorem encodeAdvRecords_cons (r : Nat × List Nat) (rs : List (Nat × List Nat)) :
    encodeAdvRecords (r :: rs) =
      (r.2.length + 1) :: r.1 :: (r.2 ++ encodeAdvRecords rs) := by
  simp [encodeAdvRecords, encodeAdvRecord]

theorem decodeAdvLoop_records (rs : List (Nat × List Nat)) :
    ∀ (m : List (Nat × List Nat)) (tail : List Nat),
      decodeAdvLoop m (encodeAdvRecords rs ++ tail) =
        decodeAdvLoop (rs.foldl (fun a r => odInsert a r.1 r.2) m) tail := by
  induction rs with
  | nil =>
    intro m tail
    simp [encodeAdvRecords]
  | cons r rs ih =>
    intro m tail
    rw [encodeAdvRecords_cons]
    have hshape : ((r.2.length + 1) :: r.1 :: (r.2 ++ encodeAdvRecords rs)) ++ tail
        = (r.2.length + 1) :: r.1 :: (r.2 ++ (encodeAdvRecords rs ++ tail)) := by
      simp
    rw [hshape, decodeAdvLoop_cons₂,
      if_neg (by simp only [List.length_cons, List.length_append]; omega)]
    have htake : (r.2 ++ (encodeAdvRecords rs ++ tail)).take (r.2.length + 1 - 1) = r.2 := by
      rw [show r.2.length + 1 - 1 = r.2.length from rfl]
      exact List.take_left r.2 _
    have hdrop : ((r.2.length + 1) :: r.1 :: (r.2 ++ (encodeAdvRecords rs ++ tail))).drop
        (r.2.length + 1 + 1) = encodeAdvRecords rs ++ tail := by
      rw [show r.2.length + 1 + 1 = r.2.length + 2 from rfl]
      rw [show r.2.length + 2 = r.2.length + 1 + 1 from rfl, List.drop_succ_cons,
        List.drop_succ_cons]
      exact List.drop_left r.2 _
    rw [htake, hdrop, ih]
    rfl

/-- C6: a buffer consisting of well-formed (length, type, value) records
decodes to the insertion-ordered mapping from type tag to value bytes in
which a repeated type tag makes the later occurrence overwrite the
earlier value; in particular the bytes 02 01 06 decode to the mapping
sending tag 1 to the single byte 06, and a duplicate of tag 1 overwrites
the earlier value in place. -/
theorem c6_adv_decode (rs : List (Nat × List Nat)) :
    decodeAdvertisingData (encodeAdvRecords rs) = .ok (advRecordsToMap rs) ∧
    decodeAdvertisingData [2, 1, 6] = .ok [(1, [6])] ∧
    decodeAdvertisingData [2, 1, 6, 2, 1, 7] = .ok [(1, [7])] := by
  refine ⟨?_,
    by simp [decodeAdvertisingData, decodeAdvLoop_cons₂, decodeAdvLoop_nil, odInsert],
    by simp [decodeAdvertisingData, decodeAdvLoop_cons₂, decodeAdvLoop_nil, odInsert]⟩
  rw [decodeAdvertisingData, show encodeAdvRecords rs = encodeAdvRecords rs ++ [] from
    (List.append_nil _).symm, decodeAdvLoop_records rs [] [], decodeAdvLoop_nil]
  rfl

/-- C7 (amended): when an element whose 2-byte (length, type) header is
present declares a length that runs past the end of the buffer, the
decoder fails with the FormatError ValueError; but when only the length
byte of the final element remains, `struct.unpack_from` fails first with
a struct.error instead of the FormatError. -/
theorem c7_adv_overrun (rs : List (Nat × List Nat)) (L T : Nat) (rest : List Nat)
    (hover : (L :: T :: rest).length < L + 1) :
    decodeAdvertisingData (encodeAdvRecords rs ++ (L :: T :: rest)) =
      .error (.valueError msgInvalidAdvLen) ∧
    decodeAdvertisingData (encodeAdvRecords rs ++ [L]) = .error .structError := by
  constructor
  · rw [decodeAdvertisingData, decodeAdvLoop_records rs [] (L :: T :: rest),
      decodeAdvLoop_cons₂, if_pos (by omega)]
  · rw [decodeAdvertisingData, decodeAdvLoop_records rs [] [L], decodeAdvLoop_one]

theorem c7_adv_overrun_witness :
    decodeAdvertisingData (encodeAdvRecords [(1, [6])] ++ (5 :: 1 :: [])) =
      .error (.valueError msgInvalidAdvLen) ∧
    decodeAdvertisingData (encodeAdvRecords [(1, [6])] ++ [5]) =
      .error .structError :=
  c7_adv_overrun [(1, [6])] 5 1 [] (by decide)

/-- C7 counterexample: the buffer consisting of the single byte 05
declares an element length that runs past the end of the buffer, yet the
decoder fails with the struct.error from `struct.unpack_from`, not with
the FormatError ValueError. -/
theorem c7_adv_overrun_cex :
    decodeAdvertisingData [5] = .error .structError ∧
    PyError.structError ≠ PyError.valueError msgInvalidAdvLen := by
  exact ⟨by simp [decodeAdvertisingData, decodeAdvLoop_one], by decide⟩

theorem MgmtFrame.encode_assoc (f : MgmtFrame) :
    f.encode = natToBytesLE 2 f.eventCode ++ (natToBytesLE 2 f.ctrlIndex ++
      (natToBytesLE 2 f.data.length ++ f.data)) := by
  simp [MgmtFrame.encode]

theorem MgmtFrame.encode_length (f : MgmtFrame) :
    f.encode.length = 6 + f.data.length := by
  simp only [MgmtFrame.encode, List.length_append, natToBytesLE_length]

theorem MgmtFrame.encode_take2 (f : MgmtFrame) :
    f.encode.take 2 = natToBytesLE 2 f.eventCode := by
  rw [MgmtFrame.encode_assoc]
  exact List.take_left' (natToBytesLE_length 2 _)

theorem MgmtFrame.encode_drop4 (f : MgmtFrame) :
    f.encode.drop 4 = natToBytesLE 2 f.data.length ++ f.data := by
  rw [MgmtFrame.encode_assoc,
    show (4 : Nat) = (natToBytesLE 2 f.eventCode).length + 2 from by
      rw [natToBytesLE_length],
    List.drop_append, List.drop_left' (natToBytesLE_length 2 _)]

theorem MgmtFrame.encode_drop6 (f : MgmtFrame) : f.encode.drop 6 = f.data := by
  rw [show (6 : Nat) = 4 + 2 from rfl, ← List.drop_drop, MgmtFrame.encode_drop4,
    List.drop_left' (natToBytesLE_length 2 _)]

theorem getD_eq_headD_drop (l : List Nat) (n : Nat) :
    l.getD n 0 = (l.drop n).headD 0 := by
  induction n generalizing l with
  | zero => cases l <;> rfl
  | succ n ih =>
    cases l with
    | nil => rfl
    | cons a l => simp [List.getD, ih l]

theorem issueLoop_cons (opCode : Nat) (rcvData c : List Nat)
    (rest : List (List Nat)) :
    issueLoop opCode rcvData (c :: rest) =
      (if (rcvData ++ c).length < 6 then issueLoop opCode (rcvData ++ c) rest
      else if (rcvData ++ c).length <
          fromBytesLE (((rcvData ++ c).drop 4).take 2) + 6 then
        issueLoop opCode (rcvData ++ c) rest
      else if (fromBytesLE ((rcvData ++ c).take 2) = 1 ∨
            fromBytesLE ((rcvData ++ c).take 2) = 2) ∧
          9 ≤ (rcvData ++ c).length ∧
          fromBytesLE (((rcvData ++ c).drop 6).take 2) = opCode then
        some ((rcvData ++ c).getD 8 0,
          if fromBytesLE ((rcvData ++ c).take 2) = 1 then
            some (((rcvData ++ c).drop 9).take
              (fromBytesLE (((rcvData ++ c).drop 4).take 2) + 6 - 9))
          else none)
      else
        issueLoop opCode
          ((rcvData ++ c).drop (6 + fromBytesLE (((rcvData ++ c).drop 4).take 2)))
          rest) := by
  rw [issueLoop]

/-- Parsing the 16-bit data-length field out of a partial buffer
`E.take k` once at least the 6-byte header has arrived. -/
theorem partial_dataLen (f : MgmtFrame) (hwf : f.wf) (k : Nat) (h6 : 6 ≤ k) :
    fromBytesLE (((f.encode.take k).drop 4).take 2) = f.data.length := by
  rw [List.drop_take, List.take_take, show min 2 (k - 4) = 2 from by omega,
    MgmtFrame.encode_drop4, List.take_left' (natToBytesLE_length 2 _),
    fromBytesLE_natToBytesLE 2 _ (keyId_lt_pow _ hwf.2.2)]

/-- Parsing the 16-bit event-code field out of a partial buffer. -/
theorem partial_eventCode (f : MgmtFrame) (hwf : f.wf) (k : Nat) (h2 : 2 ≤ k) :
    fromBytesLE ((f.encode.take k).take 2) = f.eventCode := by
  rw [List.take_take, show min 2 k = 2 from by omega, MgmtFrame.encode_take2,
    fromBytesLE_natToBytesLE 2 _ (keyId_lt_pow _ hwf.1)]

theorem flatten_nil_of_nonempty (cs : List (List Nat))
    (hall : ∀ c ∈ cs, c ≠ []) (h : cs.flatten = []) : cs = [] := by
  cases cs with
  | nil => rfl
  | cons c cs =>
    exfalso
    apply hall c (by simp)
    have hc : c ++ cs.flatten = [] := by simpa using h
    exact (List.append_eq_nil.mp hc).1

theorem issueLoop_skip (opCode : Nat) (f : MgmtFrame) (hwf : f.wf)
    (hskip : f.skippable opCode) :
    ∀ (cs : List (List Nat)), cs ≠ [] → (∀ c ∈ cs, c ≠ []) →
    ∀ (k : Nat) (tail : List (List Nat)),
      cs.flatten = f.encode.drop k → k ≤ f.encode.length →
      issueLoop opCode (f.encode.take k) (cs ++ tail) = issueLoop opCode [] tail := by
  intro cs
  induction cs with
  | nil => intro h; exact absurd rfl h
  | cons c cs ih =>
    intro _ hall k tail hflat hk
    have hcne : c ≠ [] := hall c (by simp)
    have hflat' : c ++ cs.flatten = f.encode.drop k := by simpa using hflat
    have hc : (f.encode.drop k).take c.length = c := by
      rw [← hflat', List.take_left]
    have hlen_c : c.length ≤ f.encode.length - k := by
      have hlc := congrArg List.length hc
      rw [List.length_take, List.length_drop] at hlc
      omega
    have hbuf : f.encode.take k ++ c = f.encode.take (k + c.length) := by
      rw [List.take_add, hc]
    have hflat2 : cs.flatten = f.encode.drop (k + c.length) := by
      have hd : (f.encode.drop k).drop c.length = cs.flatten := by
        rw [← hflat', List.drop_left]
      rw [← hd, List.drop_drop, Nat.add_comm]
    have hkc : 0 < c.length := List.length_pos.mpr hcne
    have hk' : k + c.length ≤ f.encode.length := by omega
    have hE6 : 6 ≤ f.encode.length := by rw [f.encode_length]; omega
    have hlen_take : (f.encode.take (k + c.length)).length = k + c.length := by
      rw [List.length_take]; omega
    rw [show (c :: cs) ++ tail = c :: (cs ++ tail) from rfl, issueLoop_cons, hbuf]
    by_cases h6 : k + c.length < 6
    · rw [if_pos (by rw [hlen_take]; omega)]
      have hcs_ne : cs ≠ [] := by
        intro hnil
        rw [hnil] at hflat2
        have hl := congrArg List.length hflat2
        simp only [List.flatten_nil, List.length_nil, List.length_drop] at hl
        omega
      exact ih hcs_ne (fun x hx => hall x (by simp [hx])) (k + c.length) tail hflat2 hk'
    · rw [if_neg (by rw [hlen_take]; omega)]
      rw [partial_dataLen f hwf (k + c.length) (by omega)]
      by_cases hfull : k + c.length < f.encode.length
      · rw [if_pos (by rw [hlen_take]; have := f.encode_length; omega)]
        have hcs_ne : cs ≠ [] := by
          intro hnil
          rw [hnil] at hflat2
          have hl := congrArg List.length hflat2
          simp only [List.flatten_nil, List.length_nil, List.length_drop] at hl
          omega
        exact ih hcs_ne (fun x hx => hall x (by simp [hx])) (k + c.length) tail hflat2 hk'
      · have hkE : k + c.length = f.encode.length := by omega
        rw [if_neg (by rw [hlen_take]; have := f.encode_length; omega)]
        rw [hkE, List.take_length]
        have hcs_nil : cs = [] := by
          apply flatten_nil_of_nonempty cs (fun x hx => hall x (by simp [hx]))
          rw [hflat2, hkE, List.drop_length]
        have hev : fromBytesLE (f.encode.take 2) = f.eventCode := by
          rw [MgmtFrame.encode_take2,
            fromBytesLE_natToBytesLE 2 _ (keyId_lt_pow _ hwf.1)]
        rw [if_neg (by
          rintro ⟨h12, h9, hmatch⟩
          rw [hev] at h12
          rcases hskip with h | ⟨h2, hne⟩
          · exact h h12
          · rw [MgmtFrame.encode_drop6] at hmatch
            exact hne hmatch)]
        rw [show f.encode.drop (6 + f.data.length) = [] from by
          rw [← f.encode_length, List.drop_length]]
        rw [hcs_nil, List.nil_append]

theorem issueLoop_match (opCode : Nat) (hop : opCode < 2 ^ 16) (M : MgmtFrame)
    (hwf : M.wf) (h12 : M.eventCode = 1 ∨ M.eventCode = 2)
    (status : Nat) (result : List Nat)
    (hdata : M.data = natToBytesLE 2 opCode ++ status :: result) :
    ∀ (cs : List (List Nat)), cs ≠ [] → (∀ c ∈ cs, c ≠ []) →
    ∀ (k : Nat) (tail : List (List Nat)),
      cs.flatten = M.encode.drop k → k ≤ M.encode.length →
      issueLoop opCode (M.encode.take k) (cs ++ tail) =
        some (status, if M.eventCode = 1 then some result else none) := by
  have hdl : M.data.length = 3 + result.length := by
    rw [hdata]
    simp only [List.length_append, natToBytesLE_length, List.length_cons]
    omega
  intro cs
  induction cs with
  | nil => intro h; exact absurd rfl h
  | cons c cs ih =>
    intro _ hall k tail hflat hk
    have hcne : c ≠ [] := hall c (by simp)
    have hflat' : c ++ cs.flatten = M.encode.drop k := by simpa using hflat
    have hc : (M.encode.drop k).take c.length = c := by
      rw [← hflat', List.take_left]
    have hlen_c : c.length ≤ M.encode.length - k := by
      have hlc := congrArg List.length hc
      rw [List.length_take, List.length_drop] at hlc
      omega
    have hbuf : M.encode.take k ++ c = M.encode.take (k + c.length) := by
      rw [List.take_add, hc]
    have hflat2 : cs.flatten = M.encode.drop (k + c.length) := by
      have hd : (M.encode.drop k).drop c.length = cs.flatten := by
        rw [← hflat', List.drop_left]
      rw [← hd, List.drop_drop, Nat.add_comm]
    have hkc : 0 < c.length := List.length_pos.mpr hcne
    have hk' : k + c.length ≤ M.encode.length := by omega
    have hE6 : 6 ≤ M.encode.length := by rw [M.encode_length]; omega
    have hlen_take : (M.encode.take (k + c.length)).length = k + c.length := by
      rw [List.length_take]; omega
    rw [show (c :: cs) ++ tail = c :: (cs ++ tail) from rfl, issueLoop_cons, hbuf]
    by_cases h6 : k + c.length < 6
    · rw [if_pos (by rw [hlen_take]; omega)]
      have hcs_ne : cs ≠ [] := by
        intro hnil
        rw [hnil] at hflat2
        have hl := congrArg List.length hflat2
        simp only [List.flatten_nil, List.length_nil, List.length_drop] at hl
        omega
      exact ih hcs_ne (fun x hx => hall x (by simp [hx])) (k + c.length) tail hflat2 hk'
    · rw [if_neg (by rw [hlen_take]; omega)]
      rw [partial_dataLen M hwf (k + c.length) (by omega)]
      by_cases hfull : k + c.length < M.encode.length
      · rw [if_pos (by rw [hlen_take]; have := M.encode_length; omega)]
        have hcs_ne : cs ≠ [] := by
          intro hnil
          rw [hnil] at hflat2
          have hl := congrArg List.length hflat2
          simp only [List.flatten_nil, List.length_nil, List.length_drop] at hl
          omega
        exact ih hcs_ne (fun x hx => hall x (by simp [hx])) (k + c.length) tail hflat2 hk'
      · have hkE : k + c.length = M.encode.length := by omega
        rw [if_neg (by rw [hlen_take]; have := M.encode_length; omega)]
        rw [hkE, List.take_length]
        have hev : fromBytesLE (M.encode.take 2) = M.eventCode := by
          rw [MgmtFrame.encode_take2,
            fromBytesLE_natToBytesLE 2 _ (keyId_lt_pow _ hwf.1)]
        have hemb : fromBytesLE ((M.encode.drop 6).take 2) = opCode := by
          rw [MgmtFrame.encode_drop6, hdata,
            List.take_left' (natToBytesLE_length 2 _),
            fromBytesLE_natToBytesLE 2 _ (keyId_lt_pow _ hop)]
        rw [if_pos ⟨by rw [hev]; exact h12,
          by rw [M.encode_length]; omega, hemb⟩]
        have hg : M.encode.getD 8 0 = status := by
          rw [getD_eq_headD_drop, show (8 : Nat) = 6 + 2 from rfl,
            ← List.drop_drop 2 6, MgmtFrame.encode_drop6, hdata,
            List.drop_left' (natToBytesLE_length 2 _)]
          rfl
        have hres : (M.encode.drop 9).take (M.data.length + 6 - 9) = result := by
          rw [show (9 : Nat) = 6 + 3 from rfl, ← List.drop_drop 3 6,
            MgmtFrame.encode_drop6, hdata,
            show (3 : Nat) = (natToBytesLE 2 opCode).length + 1 from by
              rw [natToBytesLE_length],
            List.drop_append, List.drop_succ_cons, List.drop_zero]
          rw [show (natToBytesLE 2 opCode ++ status :: result).length + 6 -
              (6 + ((natToBytesLE 2 opCode).length + 1)) = result.length from by
            simp only [List.length_append, natToBytesLE_length, List.length_cons]
            omega]
          exact List.take_length result
        rw [hg, hev, hres]

/-- C5 (amended): with recv modelled as delivering the controller's byte
stream in non-empty chunks, and the chunking aligned so that no single
read spans a frame boundary (each frame arrives across one or more reads
of its own), issueRequest returns the status byte — and, for
command-complete events only, the trailing result bytes; none for
command-status events — of the first complete command-complete or
command-status frame whose embedded completedOpCode equals the outgoing
opCode, discarding every earlier complete frame whole.  This does NOT
hold for arbitrary splits: the loop performs exactly one blocking read
per iteration even when the buffer already holds further complete
frames, so a read that delivers a discarded frame together with the
matching frame leaves the loop blocked (see the counterexample). -/
theorem c5_issue_request (opCode : Nat) (hop : opCode < 2 ^ 16)
    (Fs : List MgmtFrame) (M : MgmtFrame)
    (hFs : ∀ f ∈ Fs, f.wf ∧ f.skippable opCode)
    (hMwf : M.wf) (h12 : M.eventCode = 1 ∨ M.eventCode = 2)
    (status : Nat) (result : List Nat)
    (hdata : M.data = natToBytesLE 2 opCode ++ status :: result)
    (delivery : List (List (List Nat)))
    (hdel : List.Forall₂
      (fun f cs => cs ≠ [] ∧ (∀ c ∈ cs, c ≠ []) ∧ cs.flatten = f.encode)
      (Fs ++ [M]) delivery) :
    issueLoop opCode [] delivery.flatten =
      some (status, if M.eventCode = 1 then some result else none) := by
  revert hFs delivery
  induction Fs with
  | nil =>
    intro _ delivery hdel
    rcases delivery with _ | ⟨csM, rest⟩
    · simp at hdel
    · rw [List.nil_append] at hdel
      obtain ⟨⟨hne, hall, hflat⟩, htail⟩ := List.forall₂_cons.mp hdel
      have hrest : rest = [] := by
        cases htail
        rfl
      subst hrest
      have h := issueLoop_match opCode hop M hMwf h12 status result hdata csM hne
        hall 0 [] (by simpa using hflat) (Nat.zero_le _)
      simpa using h
  | cons F Fs ih =>
    intro hFs delivery hdel
    rcases delivery with _ | ⟨csF, delivery'⟩
    · simp at hdel
    · rw [List.cons_append] at hdel
      obtain ⟨⟨hne, hall, hflat⟩, htail⟩ := List.forall₂_cons.mp hdel
      have hF := hFs F (by simp)
      have hstep := issueLoop_skip opCode F hF.1 hF.2 csF hne hall 0
        delivery'.flatten (by simpa using hflat) (Nat.zero_le _)
      rw [List.flatten_cons, show List.take 0 F.encode = [] from rfl] at *
      rw [hstep]
      exact ih (fun f hf => hFs f (by simp [hf])) delivery' htail

theorem c5_issue_request_witness :
    issueLoop 5 []
        ([[[3, 0, 0, 0, 0, 0]], [[2, 0], [0, 0, 3, 0, 5, 0, 0]]] :
          List (List (List Nat))).flatten =
      some (0, if (MgmtFrame.mk 2 0 [5, 0, 0]).eventCode = 1 then
        some ([] : List Nat) else none) :=
  c5_issue_request 5 (by decide) [MgmtFrame.mk 3 0 []] (MgmtFrame.mk 2 0 [5, 0, 0])
    (by
      intro f hf
      rw [List.mem_singleton] at hf
      subst hf
      exact ⟨⟨by decide, by decide, by decide⟩, Or.inl (by decide)⟩)
    ⟨by decide, by decide, by decide⟩ (Or.inr rfl) 0 [] rfl
    [[[3, 0, 0, 0, 0, 0]], [[2, 0], [0, 0, 3, 0, 5, 0, 0]]]
    (List.Forall₂.cons ⟨by decide, by decide, rfl⟩
      (List.Forall₂.cons ⟨by decide, by decide, rfl⟩ List.Forall₂.nil))

/-- C5 counterexample: the stream made of one non-matching frame followed
by the matching command-status frame, delivered in one single read,
makes the loop discard the first frame and then block in recv with the
matching frame sitting complete and unexamined in the buffer — no value
is returned; the same bytes split at the frame boundary do return the
status. -/
theorem c5_issue_request_cex :
    issueLoop 5 [] [[0, 0, 0, 0, 0, 0, 2, 0, 0, 0, 3, 0, 5, 0, 0]] = none ∧
    issueLoop 5 [] [[0, 0, 0, 0, 0, 0], [2, 0, 0, 0, 3, 0, 5, 0, 0]] =
      some (0, none) :=
  ⟨rfl, rfl⟩
